import Mathlib

/-!
Verification of the `auth` package (credential_store.go): a credential and
authorization store with plaintext-or-hashed password checking, a hash
memoization cache, per-user and wildcard permission grants, and a combined
authenticate-and-authorize entry point.

Shallow embedding conventions:
* Go maps become functions into `Option`.
* In-place mutation becomes explicit state passing: a method that mutates its
  receiver returns the updated structure alongside its result.
* The external bcrypt comparison `bcrypt.CompareHashAndPassword` is a
  parameter `bm : String → String → Bool`, with `bm stored candidate = true`
  exactly when the comparison of stored value `stored` against candidate
  password `candidate` returns a nil error.
* The mutexes only serialise access and have no sequential semantics, so they
  are not modelled.
-/

/-- `AllUsers` is the username that indicates all users, even anonymous users
(credential_store.go line 17). -/
def AllUsers : String := "*"

/-- `PermAll` means all actions permitted (line 20). -/
def PermAll : String := "all"

/-- `HashCache` stores hash values for users (lines 43-46). The Go field is a
map from username to a set of hashes; the inner set is modelled by its
membership function. -/
structure HashCache where
  m : String → Option (String → Bool)

/-- `NewHashCache` returns an instantiated `HashCache` (lines 49-53). -/
def NewHashCache : HashCache := ⟨fun _ => none⟩

/-- `HashCache.Check` returns whether hash is valid for username
(lines 56-66). -/
def HashCache.Check (h : HashCache) (username hash : String) : Bool :=
  match h.m username with
  | none => false
  | some s => s hash

/-- `HashCache.Store` stores the given hash as a valid hash for username
(lines 69-77): a fresh inner set is created when the user has none yet, then
the hash is inserted. -/
def HashCache.Store (h : HashCache) (username hash : String) : HashCache :=
  match h.m username with
  | none => ⟨fun u => if u = username then some (fun x => x == hash) else h.m u⟩
  | some s => ⟨fun u => if u = username then some (fun x => x == hash || s x) else h.m u⟩

/-- `Credential` represents authentication and authorization configuration
for a single user (lines 80-84). -/
structure Credential where
  Username : String
  Password : String
  Perms : List String
  deriving DecidableEq

/-- `CredentialsStore` stores authentication and authorization information
for all users (lines 87-93). The Go inner permission map is `map[string]bool`
and only key presence is ever tested, so it is kept as a map into
`Option Bool`. -/
structure CredentialsStore where
  store : String → Option String
  perms : String → Option (String → Option Bool)
  UseCache : Bool
  hashCache : HashCache

/-- `NewCredentialsStore` (lines 96-103): empty maps, caching enabled, fresh
hash cache. -/
def NewCredentialsStore : CredentialsStore :=
  ⟨fun _ => none, fun _ => none, true, NewHashCache⟩

/-- One decoding step of the `json.Decoder` stream consumed by `Load`: either
a successfully decoded `Credential`, or a failing decode. JSON byte-level
decoding is outside the modelled core; a failing bracket-token read at the
stream's start or end is likewise represented by an `err` item at that
position. -/
inductive DecodeItem where
  | ok (cred : Credential)
  | err

/-- The permission set built by the loop at lines 133-136: a fresh map over
`cred.Perms`, each entry set to `true`. -/
def permsFromList (ps : List String) : String → Option Bool :=
  ps.foldl (fun m p => fun q => if q = p then some true else m q) (fun _ => none)

/-- The body of `Load`'s decoding loop (lines 132-136): record the password
and rebuild the permission set for the record's username. -/
def insertCred (c : CredentialsStore) (cred : Credential) : CredentialsStore :=
  ⟨fun u => if u = cred.Username then some cred.Password else c.store u,
   fun u => if u = cred.Username then some (permsFromList cred.Perms) else c.perms u,
   c.UseCache, c.hashCache⟩

/-- `Load` (lines 118-146). The first component is `true` exactly when the Go
method returns a non-nil error; the second is the state of the receiver when
`Load` returns — the method mutates `c.store` and `c.perms` in place as it
decodes, so records consumed before a failure stay in the receiver. -/
def CredentialsStore.Load (c : CredentialsStore) (items : List DecodeItem) :
    Bool × CredentialsStore :=
  match items with
  | [] => (false, c)
  | DecodeItem.err :: _ => (true, c)
  | DecodeItem.ok cred :: rest => CredentialsStore.Load (insertCred c cred) rest

/-- `Check` returns true if the password is correct for the given username
(lines 149-176), parameterised by the bcrypt comparison `bm`. Returns the
result together with the receiver's state: on a successful expensive
comparison the pair is recorded in the hash cache. -/
def CredentialsStore.Check (bm : String → String → Bool) (c : CredentialsStore)
    (username password : String) : Bool × CredentialsStore :=
  match c.store username with
  | none => (false, c)
  | some pw =>
    if password = pw then (true, c)
    else if c.UseCache && c.hashCache.Check username password then (true, c)
    else if bm pw password then
      (true, ⟨c.store, c.perms, c.UseCache, c.hashCache.Store username password⟩)
    else (false, c)

/-- `Password` returns the password for the given user (lines 179-182); a
missing Go map entry yields the zero value. -/
def CredentialsStore.Password (c : CredentialsStore) (username : String) :
    String × Bool :=
  match c.store username with
  | some pw => (pw, true)
  | none => ("", false)

/-- The lookup pattern of `HasPerm` (lines 196-199 and 202-205): the
permission map has an entry for `username` whose set has the key `perm`. -/
def permsContains (c : CredentialsStore) (username perm : String) : Bool :=
  match c.perms username with
  | some m => (m perm).isSome
  | none => false

/-- `HasPerm` returns true if username has the given perm, either directly or
via `AllUsers` (lines 195-209). It does not perform any password checking. -/
def CredentialsStore.HasPerm (c : CredentialsStore) (username perm : String) : Bool :=
  if permsContains c username perm then true
  else if permsContains c AllUsers perm then true
  else false

/-- `HasAnyPerm` returns true if username has at least one of the given perms
(lines 213-222); the Go variadic parameter becomes a list, and the inner loop
returns on the first perm for which `HasPerm` holds. -/
def CredentialsStore.HasAnyPerm (c : CredentialsStore) (username : String)
    (perm : List String) : Bool :=
  perm.any fun p => c.HasPerm username p

/-- `AA` authenticates and checks authorization (lines 228-251). The Go
method has a possibly-nil pointer receiver, modelled as an `Option`; the
second component is the receiver after the call, since `Check` may grow the
hash cache. -/
def AA (bm : String → String → Bool) (cs : Option CredentialsStore)
    (username password perm : String) : Bool × Option CredentialsStore :=
  match cs with
  | none => (true, none)
  | some c =>
    if c.HasAnyPerm AllUsers [perm, PermAll] then (true, some c)
    else if username = "" then (false, some c)
    else
      let r := CredentialsStore.Check bm c username password
      if r.1 = false then (false, some r.2)
      else (r.2.HasAnyPerm username [perm, PermAll], some r.2)

/-- `BasicAuther` (lines 38-40): the one capability of the transport adapter,
producing (username, password, present). -/
structure BasicAuther where
  BasicAuth : String × String × Bool

/-- `HasPermRequest` (lines 256-262): false when the request carries no
credentials, otherwise a plain `HasPerm` on the request's username. -/
def CredentialsStore.HasPermRequest (c : CredentialsStore) (b : BasicAuther)
    (perm : String) : Bool :=
  if b.BasicAuth.2.2 = false then false
  else c.HasPerm b.BasicAuth.1 perm

/-- Written from the words of claim C1 / spec section 4.2: "the wildcard
identity holds `perm`" — the wildcard identity's own permission set contains
`perm`. -/
def wildcardHolds (c : CredentialsStore) (perm : String) : Bool :=
  permsContains c AllUsers perm

/-- Written from the words of claim C1: the username, directly or via the
wildcard, holds `perm`. -/
def holdsDirectlyOrViaWildcard (c : CredentialsStore) (username perm : String) : Bool :=
  permsContains c username perm || wildcardHolds c perm

/-- The decision procedure transcribed from claim C1's words (spec 4.2,
`AuthenticateAndAuthorize` steps 1-5), to be compared against `AA`: nil store
first, then the wildcard grant, then the empty-username test, then
authentication, then the final permission test. -/
def AA_claim (bm : String → String → Bool) (cs : Option CredentialsStore)
    (username password perm : String) : Bool :=
  match cs with
  | none => true
  | some c =>
    if wildcardHolds c perm || wildcardHolds c PermAll then true
    else if username = "" then false
    else if (CredentialsStore.Check bm c username password).1 = false then false
    else holdsDirectlyOrViaWildcard c username perm ||
      holdsDirectlyOrViaWildcard c username PermAll

/-- A history of `HashCache.Store` calls folded over a fresh cache, used to
state the round-trip property of claim C8. -/
def storeAll (ops : List (String × String)) : HashCache :=
  ops.foldl (fun h p => h.Store p.1 p.2) NewHashCache

/-- A bcrypt comparison that never matches: the behaviour of
`bcrypt.CompareHashAndPassword` whenever the stored value is not a valid
bcrypt hash of the candidate (in particular for plaintext stored values). -/
def bmFalse : String → String → Bool := fun _ _ => false

/-- A bcrypt comparison under which the stored value "h1" is a valid bcrypt
hash of the password "pw" and nothing else matches. -/
def bmHash : String → String → Bool := fun stored cand => stored == "h1" && cand == "pw"

/-- A store holding the plaintext credential alice/secret with the single
permission "query". -/
def cAlice : CredentialsStore :=
  ⟨fun u => if u = "alice" then some "secret" else none,
   fun u => if u = "alice" then some (permsFromList ["query"]) else none,
   true, NewHashCache⟩

/-- A store holding the hashed credential bob/"h1" (see `bmHash`), no
permissions, empty cache. -/
def cBob : CredentialsStore :=
  ⟨fun u => if u = "bob" then some "h1" else none, fun _ => none, true, NewHashCache⟩

/-- Like `cBob` but with the cache mode disabled. -/
def cNoCache : CredentialsStore :=
  ⟨fun u => if u = "bob" then some "h1" else none, fun _ => none, false, NewHashCache⟩

/-- A store granting "status" to the wildcard identity only. -/
def cStar : CredentialsStore :=
  ⟨fun u => if u = "*" then some "" else none,
   fun u => if u = "*" then some (permsFromList ["status"]) else none,
   true, NewHashCache⟩

/-- A store into which a record with an empty username and password "pw" was
loaded. -/
def cEmptyUser : CredentialsStore :=
  ⟨fun u => if u = "" then some "pw" else none, fun _ => none, true, NewHashCache⟩

/-- A request carrying no basic-auth credentials. -/
def bAnon : BasicAuther := ⟨("", "", false)⟩

/-- The credential record a/x with permission "q". -/
def credAQ : Credential := ⟨"a", "x", ["q"]⟩

/-- The credential record a/x with no permissions. -/
def credAX : Credential := ⟨"a", "x", []⟩

/-- The credential record a/y with no permissions: same username as
`credAX`, different password. -/
def credAY : Credential := ⟨"a", "y", []⟩

/-- `HashCache.Check` after `HashCache.Store`: the stored pair is accepted,
everything else is as before. -/
theorem hashCache_check_store (h : HashCache) (u' h' u x : String) :
    (h.Store u' h').Check u x = (((u == u') && (x == h')) || h.Check u x) := by
  unfold HashCache.Store HashCache.Check
  cases hm : h.m u' with
  | none =>
    by_cases hu : u = u' <;> simp [hu, hm]
  | some s =>
    by_cases hu : u = u' <;> simp [hu, hm]

/-- `HasPerm` as a disjunction of the two permission lookups. -/
theorem hasPerm_eq (c : CredentialsStore) (u p : String) :
    c.HasPerm u p = (permsContains c u p || permsContains c AllUsers p) := by
  unfold CredentialsStore.HasPerm
  by_cases h1 : permsContains c u p <;> by_cases h2 : permsContains c AllUsers p <;>
    simp [h1, h2]

/-- `HasAnyPerm` over a two-element list is the disjunction of the two
`HasPerm` calls. -/
theorem hasAnyPerm_pair (c : CredentialsStore) (u a b : String) :
    c.HasAnyPerm u [a, b] = (c.HasPerm u a || c.HasPerm u b) := by
  simp [CredentialsStore.HasAnyPerm]

/-- `Check` leaves the password mapping, the permission mapping and the cache
mode untouched in every branch. -/
theorem check_state (bm : String → String → Bool) (c : CredentialsStore) (u p : String) :
    (CredentialsStore.Check bm c u p).2.store = c.store ∧
    (CredentialsStore.Check bm c u p).2.perms = c.perms ∧
    (CredentialsStore.Check bm c u p).2.UseCache = c.UseCache := by
  unfold CredentialsStore.Check
  cases hs : c.store u with
  | none => simp
  | some pw =>
    by_cases h1 : p = pw <;> by_cases h2 : (c.UseCache && c.hashCache.Check u p) = true <;>
      by_cases h3 : bm pw p = true <;> simp [h1, h2, h3]

/-- `HasPerm` depends only on the permission mapping. -/
theorem hasPerm_perms_eq (c d : CredentialsStore) (hp : c.perms = d.perms) (u p : String) :
    c.HasPerm u p = d.HasPerm u p := by
  unfold CredentialsStore.HasPerm permsContains
  rw [hp]

/-- For the wildcard identity the two branches of `HasPerm` coincide. -/
theorem hasPerm_allUsers (c : CredentialsStore) (q : String) :
    c.HasPerm AllUsers q = wildcardHolds c q := by
  rw [hasPerm_eq]; unfold wildcardHolds; exact Bool.or_self _

/-- A stream of successfully decoded records loads without error and folds
the loop body over the store. -/
theorem load_ok (c : CredentialsStore) (creds : List Credential) :
    CredentialsStore.Load c (creds.map DecodeItem.ok) = (false, creds.foldl insertCred c) := by
  induction creds generalizing c with
  | nil => rfl
  | cons d rest ih =>
    simp only [List.map_cons, List.foldl_cons]
    rw [CredentialsStore.Load]
    exact ih (insertCred c d)

/-- Loading records none of which carry username `u` leaves `u`'s stored
password unchanged. -/
theorem foldl_insertCred_store_of_absent (creds : List Credential) (c : CredentialsStore)
    (u : String) (h : ∀ d ∈ creds, d.Username ≠ u) :
    (creds.foldl insertCred c).store u = c.store u := by
  induction creds generalizing c with
  | nil => rfl
  | cons d rest ih =>
    simp only [List.foldl_cons]
    rw [ih (insertCred c d) (fun e he => h e (List.mem_cons_of_mem d he))]
    have hd : d.Username ≠ u := h d (List.mem_cons_self d rest)
    have hne : ¬(u = d.Username) := fun hu => hd hu.symm
    simp only [insertCred, if_neg hne]

/-- Membership in a cache built by a history of `Store` calls is membership
in the history, up to the starting cache. -/
theorem foldl_store_check (ops : List (String × String)) (h0 : HashCache) (u x : String) :
    ((ops.foldl (fun a p => a.Store p.1 p.2) h0).Check u x = true)
      ↔ ((u, x) ∈ ops ∨ h0.Check u x = true) := by
  induction ops generalizing h0 with
  | nil => simp
  | cons p tl ih =>
    simp only [List.foldl_cons]
    rw [ih, hashCache_check_store]
    simp [List.mem_cons, Prod.ext_iff]
    tauto

/-- Claim C1: `AA` follows the claimed decision order exactly — nil store
grants unconditionally and is tested first; then a wildcard grant of `perm`
or the all-permissions sentinel grants without authentication; then an empty
username denies; then failed credentials deny; finally the result is whether
the username, directly or via the wildcard, holds `perm` or the
all-permissions sentinel. Stated as equality with `AA_claim`, the procedure
transcribed from the claim's words. -/
theorem aa_decision_order_C1 (bm : String → String → Bool)
    (cs : Option CredentialsStore) (username password perm : String) :
    (AA bm cs username password perm).1 = AA_claim bm cs username password perm := by
  cases cs with
  | none => rfl
  | some c =>
    have hall : c.HasAnyPerm AllUsers [perm, PermAll]
        = (wildcardHolds c perm || wildcardHolds c PermAll) := by
      rw [hasAnyPerm_pair, hasPerm_allUsers, hasPerm_allUsers]
    simp only [AA, AA_claim]
    rw [hall]
    by_cases h1 : (wildcardHolds c perm || wildcardHolds c PermAll) = true
    · simp [h1]
    · by_cases h2 : username = ""
      · simp [h1, h2]
      · by_cases h3 : (CredentialsStore.Check bm c username password).1 = false
        · simp [h1, h2, h3]
        · have hperms := (check_state bm c username password).2.1
          have h4 : ∀ q, (CredentialsStore.Check bm c username password).2.HasPerm username q
              = c.HasPerm username q := fun q => hasPerm_perms_eq _ _ hperms username q
          simp only [wildcardHolds, Bool.or_eq_true, not_or] at h1
          obtain ⟨h1a, h1b⟩ := h1
          simp only [Bool.not_eq_true] at h1a h1b
          simp [h1a, h1b, h2, h3, hasAnyPerm_pair, h4, hasPerm_eq,
            holdsDirectlyOrViaWildcard, wildcardHolds]

/-- Claim C2: `Check` evaluates in order with short-circuiting — unknown
username is false immediately; exact equality with the stored value is true;
with the cache mode enabled a cache hit is true; otherwise the expensive
comparison `bm` decides the result (so a cache miss, or a disabled cache,
always falls through to the ground truth and never causes a false negative),
recording the pair into the cache on success. -/
theorem check_order_C2 (bm : String → String → Bool) (c : CredentialsStore)
    (username password pw : String) :
    (c.store username = none → CredentialsStore.Check bm c username password = (false, c)) ∧
    (c.store username = some pw → password = pw →
      CredentialsStore.Check bm c username password = (true, c)) ∧
    (c.store username = some pw → password ≠ pw →
      (c.UseCache && c.hashCache.Check username password) = true →
      CredentialsStore.Check bm c username password = (true, c)) ∧
    (c.store username = some pw → password ≠ pw →
      (c.UseCache && c.hashCache.Check username password) = false →
      (CredentialsStore.Check bm c username password).1 = bm pw password) ∧
    (c.store username = some pw → password ≠ pw →
      (c.UseCache && c.hashCache.Check username password) = false → bm pw password = true →
      HashCache.Check (CredentialsStore.Check bm c username password).2.hashCache
        username password = true) ∧
    (c.store username = some pw → bm pw password = true →
      (CredentialsStore.Check bm c username password).1 = true) := by
  refine ⟨?_, ?_, ?_, ?_, ?_, ?_⟩
  · intro hs; unfold CredentialsStore.Check; simp [hs]
  · intro hs hp; unfold CredentialsStore.Check; simp [hs, hp]
  · intro hs hp hc; unfold CredentialsStore.Check; simp [hs, hp, hc]
  · intro hs hp hc; unfold CredentialsStore.Check
    by_cases hb : bm pw password = true <;> simp [hs, hp, hc, hb]
  · intro hs hp hc hb; unfold CredentialsStore.Check
    simp [hs, hp, hc, hb, hashCache_check_store]
  · intro hs hb; unfold CredentialsStore.Check
    by_cases hp : password = pw
    · simp [hs, hp]
    · by_cases hc : (c.UseCache && c.hashCache.Check username password) = true <;>
        simp [hs, hp, hc, hb]

/-- Witness for C2 at a concrete input: the plaintext branch. -/
theorem check_order_C2_witness :
    CredentialsStore.Check bmFalse cAlice "alice" "secret" = (true, cAlice) :=
  (check_order_C2 bmFalse cAlice "alice" "secret" "secret").2.1 (by decide) rfl

/-- Amended claim C3: if `Load` fails, the error is propagated but the
records decoded before the failure point remain in the receiver — `Load`
mutates the store in place, so the failed stream's earlier records stay
observable; records at or after the failure are not loaded. All-or-nothing
construction holds only if the caller discards the store on a non-nil
error. -/
theorem load_failure_partial_state_C3 (c : CredentialsStore) (pre : List Credential)
    (rest : List DecodeItem) :
    CredentialsStore.Load c (pre.map DecodeItem.ok ++ DecodeItem.err :: rest)
      = (true, pre.foldl insertCred c) := by
  induction pre generalizing c with
  | nil => rfl
  | cons d tl ih =>
    simp only [List.map_cons, List.cons_append, List.foldl_cons]
    rw [CredentialsStore.Load]
    exact ih (insertCred c d)

/-- Counterexample to claim C3 as stated: loading the record a/x/["q"]
followed by a malformed record returns an error, yet the record is
observable through `Check`, `Password` and `HasPerm` afterwards. -/
theorem load_failure_partial_state_C3_cex :
    (CredentialsStore.Load NewCredentialsStore [DecodeItem.ok credAQ, DecodeItem.err]).1
      = true ∧
    ((CredentialsStore.Load NewCredentialsStore
        [DecodeItem.ok credAQ, DecodeItem.err]).2.Check bmFalse "a" "x").1 = true ∧
    (CredentialsStore.Load NewCredentialsStore
        [DecodeItem.ok credAQ, DecodeItem.err]).2.Password "a" = ("x", true) ∧
    (CredentialsStore.Load NewCredentialsStore
        [DecodeItem.ok credAQ, DecodeItem.err]).2.HasPerm "a" "q" = true := by
  decide

/-- Amended claim C4: for every credential record (u, p, perms) in the
sequence consumed by a successful `Load`, if no later record of the sequence
carries the same username (duplicates are resolved last-wins), then
`Check(u, p)` is true immediately after the load. -/
theorem load_then_check_C4 (bm : String → String → Bool) (c : CredentialsStore)
    (pre post : List Credential) (cred : Credential)
    (h : ∀ d ∈ post, d.Username ≠ cred.Username) :
    (CredentialsStore.Load c ((pre ++ cred :: post).map DecodeItem.ok)).1 = false ∧
    ((CredentialsStore.Load c ((pre ++ cred :: post).map DecodeItem.ok)).2.Check
        bm cred.Username cred.Password).1 = true := by
  rw [load_ok]
  refine ⟨rfl, ?_⟩
  have hstore : ((pre ++ cred :: post).foldl insertCred c).store cred.Username
      = some cred.Password := by
    rw [List.foldl_append, List.foldl_cons,
      foldl_insertCred_store_of_absent post _ _ h]
    simp [insertCred]
  unfold CredentialsStore.Check
  rw [hstore]
  simp

/-- Witness for the amended C4: a two-record stream with distinct usernames
would also work; here the singleton suffix after `credAQ` is empty. -/
theorem load_then_check_C4_witness :
    (CredentialsStore.Load NewCredentialsStore (([] ++ credAQ :: []).map DecodeItem.ok)).1
      = false ∧
    ((CredentialsStore.Load NewCredentialsStore
        (([] ++ credAQ :: []).map DecodeItem.ok)).2.Check bmFalse
        credAQ.Username credAQ.Password).1 = true :=
  load_then_check_C4 bmFalse NewCredentialsStore [] [] credAQ (by simp)

/-- Counterexample to claim C4 as stated: a stream with two records for
username "a" (passwords "x" then "y") loads successfully, the record a/x is
in the consumed sequence, yet `Check("a", "x")` is false after the load —
the later record overwrote the password (`bmFalse` models bcrypt here: the
stored value "y" is not a bcrypt hash of "x"). -/
theorem load_then_check_C4_cex :
    (CredentialsStore.Load NewCredentialsStore ([credAX, credAY].map DecodeItem.ok)).1
      = false ∧
    credAX ∈ [credAX, credAY] ∧ credAX.Username = "a" ∧ credAX.Password = "x" ∧
    ((CredentialsStore.Load NewCredentialsStore
        ([credAX, credAY].map DecodeItem.ok)).2.Check bmFalse "a" "x").1 = false := by
  decide

/-- Claim C5: a wildcard grant of `perm` makes `HasPerm` true for every
username, including unknown ones; a direct grant makes `HasPerm` true for
that username; and `HasPerm` performs no password checking — it is
independent of the password mapping and of the hash cache. -/
theorem hasPerm_grants_C5 (c : CredentialsStore) (username perm : String) :
    (wildcardHolds c perm = true → c.HasPerm username perm = true) ∧
    (permsContains c username perm = true → c.HasPerm username perm = true) ∧
    (∀ (s : String → Option String) (hc : HashCache),
      (CredentialsStore.mk s c.perms c.UseCache hc).HasPerm username perm
        = c.HasPerm username perm) := by
  refine ⟨?_, ?_, ?_⟩
  · intro h; rw [hasPerm_eq]; unfold wildcardHolds at h; simp [h]
  · intro h; rw [hasPerm_eq]; simp [h]
  · intro s hc; exact hasPerm_perms_eq _ _ rfl username perm

/-- Witness for C5: the wildcard grant of "status" reaches the unknown
username "nobody". -/
theorem hasPerm_grants_C5_witness : cStar.HasPerm "nobody" "status" = true :=
  (hasPerm_grants_C5 cStar "nobody" "status").1 (by decide)

/-- Claim C6: with a store whose wildcard identity holds neither `perm` nor
the all-permissions sentinel, `AA` with an empty username is false for every
password — even when a record with an empty username is in the store. -/
theorem aa_empty_username_C6 (bm : String → String → Bool) (c : CredentialsStore)
    (password perm : String)
    (h1 : wildcardHolds c perm = false) (h2 : wildcardHolds c PermAll = false) :
    (AA bm (some c) "" password perm).1 = false := by
  have hall : c.HasAnyPerm AllUsers [perm, PermAll] = false := by
    rw [hasAnyPerm_pair, hasPerm_allUsers, hasPerm_allUsers, h1, h2]; rfl
  simp only [AA]
  simp [hall]

/-- Witness for C6: the store `cEmptyUser` holds a record with an empty
username and the matching password "pw", yet `AA` denies. -/
theorem aa_empty_username_C6_witness :
    (AA bmFalse (some cEmptyUser) "" "pw" "query").1 = false :=
  aa_empty_username_C6 bmFalse cEmptyUser "pw" "query" (by decide) (by decide)

/-- Amended claim C7: `Check(u, wrong)` is false for every candidate that
differs from the stored value, is not accepted from the hash cache, and for
which the expensive one-way comparison of the stored value against the
candidate fails. (As stated the claim is false: the hash path accepts a
candidate different from the stored value by design.) -/
theorem check_reject_C7 (bm : String → String → Bool) (c : CredentialsStore)
    (username wrong pw : String) (hpw : c.store username = some pw) (hne : wrong ≠ pw)
    (hcache : (c.UseCache && c.hashCache.Check username wrong) = false)
    (hbm : bm pw wrong = false) :
    (CredentialsStore.Check bm c username wrong).1 = false := by
  unfold CredentialsStore.Check
  simp [hpw, hne, hcache, hbm]

/-- Counterexample to claim C7 as stated: for bob's stored value "h1" (a
bcrypt hash of "pw" under `bmHash`), the candidate "pw" differs from the
stored value and was never cached, yet `Check` accepts it via the hash
path. -/
theorem check_reject_C7_cex :
    ("pw" ≠ "h1") ∧ cBob.hashCache.Check "bob" "pw" = false ∧
    cBob.store "bob" = some "h1" ∧
    (CredentialsStore.Check bmHash cBob "bob" "pw").1 = true := by
  decide

/-- Witness for the amended C7: "bad" is rejected for alice. -/
theorem check_reject_C7_witness :
    (CredentialsStore.Check bmFalse cAlice "alice" "bad").1 = false :=
  check_reject_C7 bmFalse cAlice "alice" "bad" "secret" (by decide) (by decide)
    (by decide) (by decide)

/-- Claim C8: the hash cache round-trips — after any history of `Store`
calls, `HashCache.Check` accepts exactly the pairs stored by the history
(entries are never removed); consequently, when `CredentialsStore.Check`
succeeds via the expensive hash path, a subsequent `Check` with the same
pair on the updated store succeeds even with the expensive comparison
disabled (replaced by a comparison that never matches). -/
theorem hashCache_roundtrip_C8 :
    (∀ (ops : List (String × String)) (u x : String),
      ((storeAll ops).Check u x = true ↔ (u, x) ∈ ops)) ∧
    (∀ (bm : String → String → Bool) (c : CredentialsStore) (username password pw : String),
      c.UseCache = true → c.store username = some pw → password ≠ pw →
      c.hashCache.Check username password = false → bm pw password = true →
      (CredentialsStore.Check (fun _ _ => false)
        (CredentialsStore.Check bm c username password).2 username password).1 = true) := by
  constructor
  · intro ops u x
    unfold storeAll
    rw [foldl_store_check]
    simp [NewHashCache, HashCache.Check]
  · intro bm c username password pw hu hs hp hch hbm
    have hcc : (c.UseCache && c.hashCache.Check username password) = false := by
      rw [hch]; simp
    have hfirst : CredentialsStore.Check bm c username password
        = (true, ⟨c.store, c.perms, c.UseCache, c.hashCache.Store username password⟩) := by
      unfold CredentialsStore.Check
      simp [hs, hp, hcc, hbm]
    rw [hfirst]
    unfold CredentialsStore.Check
    simp [hs, hp, hu, hashCache_check_store]

/-- Witness for C8: a stored pair is found in the cache, and bob's hash-path
success is replayed from the cache with the expensive comparison disabled. -/
theorem hashCache_roundtrip_C8_witness :
    (storeAll [("bob", "pw")]).Check "bob" "pw" = true ∧
    (CredentialsStore.Check (fun _ _ => false)
      (CredentialsStore.Check bmHash cBob "bob" "pw").2 "bob" "pw").1 = true :=
  ⟨(hashCache_roundtrip_C8.1 [("bob", "pw")] "bob" "pw").mpr (by decide),
   hashCache_roundtrip_C8.2 bmHash cBob "bob" "pw" "h1" rfl (by decide) (by decide)
     (by decide) (by decide)⟩

/-- Claim C9: when a request reports no basic-auth credentials,
`HasPermRequest` is false for every perm — even though a wildcard grant
would make a direct `HasPerm` call true for any username. -/
theorem hasPermRequest_anonymous_C9 (c : CredentialsStore) (b : BasicAuther)
    (perm : String) (h : b.BasicAuth.2.2 = false) :
    c.HasPermRequest b perm = false ∧
    (wildcardHolds c perm = true → ∀ anyName : String, c.HasPerm anyName perm = true) := by
  constructor
  · unfold CredentialsStore.HasPermRequest
    simp [h]
  · intro hw anyName
    rw [hasPerm_eq]
    unfold wildcardHolds at hw
    simp [hw]

/-- Witness for C9: the anonymous request is denied "status" although the
wildcard grants it to the arbitrary username "zoe". -/
theorem hasPermRequest_anonymous_C9_witness :
    cStar.HasPermRequest bAnon "status" = false ∧ cStar.HasPerm "zoe" "status" = true :=
  ⟨(hasPermRequest_anonymous_C9 cStar bAnon "status" rfl).1,
   (hasPermRequest_anonymous_C9 cStar bAnon "status" rfl).2 (by decide) "zoe"⟩

/-- Claim C10: the cache mode gates only reading of the hash cache, not
writing — a successful expensive comparison inside `Check` records the pair
even with `UseCache = false`; and the queries never modify the password or
permission mapping: `Check` and `AA` (the two state-passing queries; the
others are read-only functions of the store) return a store with the same
`store` and `perms` fields, the hash cache being the only mutated state. -/
theorem query_frame_C10 (bm : String → String → Bool) (c : CredentialsStore)
    (username password perm : String) :
    ((CredentialsStore.Check bm c username password).2.store = c.store ∧
     (CredentialsStore.Check bm c username password).2.perms = c.perms ∧
     (CredentialsStore.Check bm c username password).2.UseCache = c.UseCache) ∧
    (∀ pw, c.UseCache = false → c.store username = some pw → password ≠ pw →
      bm pw password = true →
      HashCache.Check (CredentialsStore.Check bm c username password).2.hashCache
        username password = true) ∧
    ((AA bm (some c) username password perm).2.isSome = true ∧
     ((AA bm (some c) username password perm).2.getD c).store = c.store ∧
     ((AA bm (some c) username password perm).2.getD c).perms = c.perms) := by
  refine ⟨check_state bm c username password, ?_, ?_⟩
  · intro pw hu hs hp hbm
    have hcc : (c.UseCache && c.hashCache.Check username password) = false := by
      rw [hu]; rfl
    unfold CredentialsStore.Check
    simp [hs, hp, hcc, hbm, hashCache_check_store]
  · have hst := check_state bm c username password
    simp only [AA]
    by_cases h1 : c.HasAnyPerm AllUsers [perm, PermAll] = true
    · simp [h1]
    · by_cases h2 : username = ""
      · simp [h1, h2]
      · by_cases h3 : (CredentialsStore.Check bm c username password).1 = false
        · simp [h1, h2, h3, hst.1, hst.2.1]
        · simp [h1, h2, h3, hst.1, hst.2.1]

/-- Witness for C10: with the cache mode disabled, bob's hash-path success
still records the pair into the hash cache. -/
theorem query_frame_C10_witness :
    HashCache.Check (CredentialsStore.Check bmHash cNoCache "bob" "pw").2.hashCache
      "bob" "pw" = true :=
  (query_frame_C10 bmHash cNoCache "bob" "pw" "query").2.1 "h1" rfl (by decide)
    (by decide) (by decide)
